import Mathlib

/-!
Shallow embedding of `src/imfdatapy/data_inquiry.py` together with proofs
about its pure core: the name sanitizer, the lookup-environment builder,
the time-period parser, the codelist resolver and the dataset facade.

Modelling conventions:
* Python strings are `List Char`; values that can be `None` are `Option`;
* a raised exception is an absent (`none` / `Except.error`) result;
* `pandas` tables are association lists from column name to cell list.
-/

set_option maxHeartbeats 1000000

namespace ImfDataPy

/-- ASCII whitespace as matched by Python's regex class `\s` and by
`str.strip()`.  (The non-ASCII Unicode whitespace code points are omitted:
no claim exercises them, and a character classified as non-whitespace here
is turned into the same underscore by the preceding substitution rule, so
`sanitize` is unaffected.) -/
def isPyWs (c : Char) : Bool :=
  c == ' ' || c == '\t' || c == '\n' || c == '\r' || c == '\x0b' || c == '\x0c'

/-- One pass of Python `re.sub(class+, r, s)` for a character class `p`:
every maximal run of characters satisfying `p` is replaced by the single
character `r`.  The Boolean flag records whether the previous character was
inside such a run. -/
def collapseRunsAux (p : Char → Bool) (r : Char) : Bool → List Char → List Char
  | _, [] => []
  | inRun, c :: rest =>
    if p c then
      if inRun then collapseRunsAux p r true rest
      else r :: collapseRunsAux p r true rest
    else c :: collapseRunsAux p r false rest

/-- Replace every maximal run of characters satisfying `p` by `r`. -/
def collapseRuns (p : Char → Bool) (r : Char) (s : List Char) : List Char :=
  collapseRunsAux p r false s

/-- Python `str.strip(u)` for a single strip character `u`. -/
def stripChar (u : Char) (s : List Char) : List Char :=
  ((s.dropWhile (fun c => c == u)).reverse.dropWhile (fun c => c == u)).reverse

/-- Python `str.strip()` (strip whitespace from both ends). -/
def pyStrip (s : List Char) : List Char :=
  ((s.dropWhile isPyWs).reverse.dropWhile isPyWs).reverse

/-- The four rewriting passes of `sanitize` from `data_inquiry.py`:
`re.sub(r"[^a-zA-Z0-9\s]", "_", name)`, then `re.sub(r"\s+", "_", name)`,
then `re.sub(r"_+", "_", name)`, then `name.strip("_")`.
(The first regex replaces each matching character individually, so it is a
plain `map`; the other two collapse runs.) -/
def sanitizeCore (name : List Char) : List Char :=
  stripChar '_'
    (collapseRuns (fun c => c == '_') '_'
      (collapseRuns isPyWs '_'
        (name.map (fun c => if c.isAlpha || c.isDigit || isPyWs c then c else '_'))))

/-- `sanitize(name)` from `data_inquiry.py`: run the four rewriting passes,
then prepend `"X"` when the result is empty or does not start with a
letter. -/
def sanitize (name : List Char) : List Char :=
  match sanitizeCore name with
  | [] => ['X']
  | c :: cs => if c.isAlpha then c :: cs else 'X' :: c :: cs

theorem mem_collapseRunsAux {p : Char → Bool} {r : Char} :
    ∀ {b : Bool} {s : List Char} {c : Char},
      c ∈ collapseRunsAux p r b s → c = r ∨ (c ∈ s ∧ p c = false) := by
  intro b s
  induction s generalizing b with
  | nil => intro c h; simp [collapseRunsAux] at h
  | cons a rest ih =>
    intro c h
    rcases hpa : p a with _ | _
    · rw [collapseRunsAux, hpa] at h
      simp only [Bool.false_eq_true, if_false, List.mem_cons] at h
      rcases h with h | h
      · subst h; right; exact ⟨List.mem_cons_self .., hpa⟩
      · rcases ih h with h' | ⟨hmem, hpc⟩
        · exact Or.inl h'
        · exact Or.inr ⟨List.mem_cons_of_mem _ hmem, hpc⟩
    · rw [collapseRunsAux, hpa] at h
      simp only [if_true] at h
      have hrec : c = r ∨ (c ∈ rest ∧ p c = false) := by
        cases b with
        | false =>
          simp only [Bool.false_eq_true, if_false, List.mem_cons] at h
          rcases h with h | h
          · exact Or.inl h
          · exact ih h
        | true => exact ih h
      rcases hrec with h' | ⟨hmem, hpc⟩
      · exact Or.inl h'
      · exact Or.inr ⟨List.mem_cons_of_mem _ hmem, hpc⟩

theorem mem_stripChar {u : Char} {s : List Char} {c : Char}
    (h : c ∈ stripChar u s) : c ∈ s := by
  unfold stripChar at h
  rw [List.mem_reverse] at h
  have h1 := (List.dropWhile_sublist (l := (s.dropWhile (fun c => c == u)).reverse)
    (p := fun c => c == u)).mem h
  rw [List.mem_reverse] at h1
  exact (List.dropWhile_sublist (l := s) (p := fun c => c == u)).mem h1

theorem mem_sanitizeCore {s : List Char} {c : Char} (h : c ∈ sanitizeCore s) :
    c.isAlpha = true ∨ c.isDigit = true ∨ c = '_' := by
  unfold sanitizeCore at h
  have h3 := mem_stripChar h
  rcases mem_collapseRunsAux h3 with h4 | ⟨h4, _⟩
  · exact Or.inr (Or.inr h4)
  rcases mem_collapseRunsAux h4 with h5 | ⟨h5, hws⟩
  · exact Or.inr (Or.inr h5)
  rcases List.mem_map.mp h5 with ⟨a, _, ha⟩
  cases hcase : (a.isAlpha || a.isDigit || isPyWs a) with
  | true =>
    simp only [hcase, if_true] at ha
    subst ha
    rcases Bool.or_eq_true_iff.mp hcase with h' | h'
    · rcases Bool.or_eq_true_iff.mp h' with h'' | h''
      · exact Or.inl h''
      · exact Or.inr (Or.inl h'')
    · rw [h'] at hws; cases hws
  | false =>
    simp only [hcase, Bool.false_eq_true, if_false] at ha
    exact Or.inr (Or.inr ha.symm)

theorem sanitize_ne_nil (s : List Char) : sanitize s ≠ [] := by
  unfold sanitize
  cases sanitizeCore s with
  | nil => simp
  | cons c cs =>
    by_cases h : c.isAlpha = true
    · simp [h]
    · simp [h]

/-- C2: for every input label, `sanitize` returns a non-empty string whose
first character is a letter and whose every character is a letter, a digit
or an underscore; in particular `sanitize "1Y" = "X1Y"`. -/
theorem sanitize_spec_c2 (s : List Char) :
    (∃ c cs, sanitize s = c :: cs ∧ c.isAlpha = true) ∧
    (∀ c ∈ sanitize s, c.isAlpha = true ∨ c.isDigit = true ∨ c = '_') ∧
    sanitize ("1Y".toList) = "X1Y".toList := by
  refine ⟨?_, ?_, by decide⟩
  · unfold sanitize
    cases hc : sanitizeCore s with
    | nil => exact ⟨'X', [], rfl, by decide⟩
    | cons c cs =>
      by_cases h : c.isAlpha = true
      · exact ⟨c, cs, by simp [h], h⟩
      · exact ⟨'X', c :: cs, by simp [h], by decide⟩
  · intro c hc
    unfold sanitize at hc
    cases hcore : sanitizeCore s with
    | nil =>
      rw [hcore] at hc
      simp only [List.mem_singleton] at hc
      subst hc; exact Or.inl (by decide)
    | cons a cs =>
      rw [hcore] at hc
      by_cases h : a.isAlpha = true
      · simp only [h, if_true] at hc
        exact mem_sanitizeCore (s := s) (by rw [hcore]; exact hc)
      · simp only [h, if_false] at hc
        rcases List.mem_cons.mp hc with h' | h'
        · subst h'; exact Or.inl (by decide)
        · exact mem_sanitizeCore (s := s) (by rw [hcore]; exact h')

/-- C2 witness: the membership conjunct applied at the concrete label
`"1Y"` and the concrete character `X`. -/
theorem sanitize_spec_c2_witness :
    'X'.isAlpha = true ∨ 'X'.isDigit = true ∨ 'X' = '_' :=
  (sanitize_spec_c2 ("1Y".toList)).2.1 'X' (by decide)

/-- C3 counterexample: `sanitize "GDP (current US$)"` is NOT the string
`"GDP_current_US_"` claimed by the spec — `str.strip("_")` removes the
trailing underscore. -/
theorem sanitize_gdp_c3_counterexample :
    sanitize ("GDP (current US$)".toList) ≠ "GDP_current_US_".toList := by
  decide

/-- C3 (amended): `sanitize "GDP (current US$)"` returns exactly
`"GDP_current_US"` (non-alnum to `_`, collapse runs, strip `_` from both
ends — including the trailing one). -/
theorem sanitize_gdp_c3 :
    sanitize ("GDP (current US$)".toList) = "GDP_current_US".toList := by
  decide

/-- Python `dict` lookup `d[k]` over an insertion-ordered association
list (`none` models a raised `KeyError`). -/
def pyLookup {β : Type} (k : List Char) : List (List Char × β) → Option β
  | [] => none
  | (k', v) :: rest => if k' = k then some v else pyLookup k rest

/-- Python `dict` assignment `d[k] = v`: replace the binding in place when
the key is present, append it at the end otherwise. -/
def dictSet {β : Type} (d : List (List Char × β)) (k : List Char) (v : β) :
    List (List Char × β) :=
  match d with
  | [] => [(k, v)]
  | (k', w) :: rest => if k' = k then (k, v) :: rest else (k', w) :: dictSet rest k v

/-- The test `code in (None, "")` from `make_env`, negated: `true` exactly
for a present, non-empty code. -/
def goodCode : Option (List Char) → Bool
  | none => false
  | some c => !c.isEmpty

/-- One iteration of the `for label, code in pairs` loop of `make_env`:
skip absent/empty codes, sanitize the label, skip an empty key, then either
`d.setdefault(k, code)` (keep = "first") or `d[k] = code` (any other keep
value, in particular "last"). -/
def envStep (keep : List Char) (d : List (List Char × List Char))
    (p : List Char × Option (List Char)) : List (List Char × List Char) :=
  match p.2 with
  | none => d
  | some code =>
    if code = [] then d
    else if sanitize p.1 = [] then d
    else if keep = "first".toList then
      match pyLookup (sanitize p.1) d with
      | some _ => d
      | none => d ++ [(sanitize p.1, code)]
    else dictSet d (sanitize p.1) code

/-- `make_env(pairs, keep=keep)` from `data_inquiry.py`: fold the loop body
over the pairs starting from the empty dict (the resulting dict is the
`_attrs` mapping of the returned `DimensionEnv`). -/
def make_env (pairs : List (List Char × Option (List Char))) (keep : List Char) :
    List (List Char × List Char) :=
  pairs.foldl (envStep keep) []

/-- The pairs that `make_env` keeps for a key `k`: present non-empty code
whose sanitized label is `k`. -/
def envPred (k : List Char) (p : List Char × Option (List Char)) : Bool :=
  goodCode p.2 && decide (sanitize p.1 = k)

theorem pyLookup_append {β : Type} (k k' : List Char) (v : β)
    (d : List (List Char × β)) :
    pyLookup k (d ++ [(k', v)]) =
      match pyLookup k d with
      | some w => some w
      | none => if k' = k then some v else none := by
  induction d with
  | nil => simp [pyLookup]
  | cons p rest ih =>
    rcases p with ⟨k1, w⟩
    by_cases h : k1 = k
    · simp [pyLookup, h]
    · simpa [pyLookup, h] using ih

theorem pyLookup_dictSet {β : Type} (k k' : List Char) (v : β)
    (d : List (List Char × β)) :
    pyLookup k (dictSet d k' v) = if k' = k then some v else pyLookup k d := by
  induction d with
  | nil => simp [dictSet, pyLookup]
  | cons p rest ih =>
    rcases p with ⟨k1, w⟩
    by_cases h1 : k1 = k'
    · subst h1
      by_cases h2 : k1 = k
      · simp [dictSet, pyLookup, h2]
      · simp [dictSet, pyLookup, h2]
    · by_cases h2 : k1 = k
      · have h3 : ¬k' = k := fun hh => h1 (h2.trans hh.symm)
        have h4 : ¬k = k' := fun hh => h3 hh.symm
        simp [dictSet, pyLookup, h1, h2, h3, h4]
      · simp [dictSet, pyLookup, h1, h2, ih]

theorem dictSet_absent {β : Type} (k : List Char) (v : β)
    (d : List (List Char × β)) (h : pyLookup k d = none) :
    dictSet d k v = d ++ [(k, v)] := by
  induction d with
  | nil => simp [dictSet]
  | cons p rest ih =>
    rcases p with ⟨k1, w⟩
    by_cases h1 : k1 = k
    · rw [pyLookup, if_pos h1] at h; cases h
    · rw [pyLookup, if_neg h1] at h
      simp [dictSet, h1, ih h]

theorem envFirst_lookup (ps : List (List Char × Option (List Char)))
    (d : List (List Char × List Char)) (k : List Char) :
    pyLookup k (ps.foldl (envStep ("first".toList)) d) =
      match pyLookup k d with
      | some v => some v
      | none => (ps.find? (envPred k)).bind (fun p => p.2) := by
  induction ps generalizing d with
  | nil =>
    simp only [List.foldl_nil, List.find?_nil, Option.bind_none]
    cases pyLookup k d <;> rfl
  | cons p ps ih =>
    rw [List.foldl_cons, ih]
    rcases p with ⟨label, codeOpt⟩
    cases codeOpt with
    | none =>
      simp [envStep, envPred, goodCode, List.find?_cons]
    | some code =>
      by_cases hcode : code = []
      · subst hcode
        simp [envStep, envPred, goodCode, List.find?_cons]
      · have hkey : sanitize label ≠ [] := sanitize_ne_nil label
        by_cases hkk : sanitize label = k
        · subst hkk
          have hpred : envPred (sanitize label) (label, some code) = true := by
            simp [envPred, goodCode, List.isEmpty_iff, hcode]
          cases hd : pyLookup (sanitize label) d with
          | some w =>
            have hstep : envStep ("first".toList) d (label, some code) = d := by
              simp [envStep, hcode, hkey, hd]
            rw [hstep, hd]
          | none =>
            have hstep : envStep ("first".toList) d (label, some code) =
                d ++ [(sanitize label, code)] := by
              simp [envStep, hcode, hkey, hd]
            rw [hstep, pyLookup_append, hd, List.find?_cons, hpred]
            simp
        · have hpred : envPred k (label, some code) = false := by
            simp [envPred, hkk]
          have hlook : pyLookup k (envStep ("first".toList) d (label, some code)) =
              pyLookup k d := by
            cases hs : pyLookup (sanitize label) d with
            | some w =>
              have hstep : envStep ("first".toList) d (label, some code) = d := by
                simp [envStep, hcode, hkey, hs]
              rw [hstep]
            | none =>
              have hstep : envStep ("first".toList) d (label, some code) =
                  d ++ [(sanitize label, code)] := by
                simp [envStep, hcode, hkey, hs]
              rw [hstep, pyLookup_append]
              cases pyLookup k d <;> simp [hkk]
          rw [hlook, List.find?_cons, hpred]

theorem envLast_lookup (ps : List (List Char × Option (List Char)))
    (d : List (List Char × List Char)) (k : List Char) :
    pyLookup k (ps.foldl (envStep ("last".toList)) d) =
      match ps.reverse.find? (envPred k) with
      | some p => p.2
      | none => pyLookup k d := by
  induction ps generalizing d with
  | nil => simp
  | cons p ps ih =>
    rw [List.foldl_cons, ih, List.reverse_cons, List.find?_append]
    cases hfind : ps.reverse.find? (envPred k) with
    | some q => rfl
    | none =>
      rcases p with ⟨label, codeOpt⟩
      simp only [Option.none_or]
      cases codeOpt with
      | none => simp [envStep, envPred, goodCode, List.find?_cons]
      | some code =>
        by_cases hcode : code = []
        · subst hcode
          simp [envStep, envPred, goodCode, List.find?_cons]
        · have hkey : sanitize label ≠ [] := sanitize_ne_nil label
          have hlast : ¬("last".toList = "first".toList) := by decide
          have hstep : envStep ("last".toList) d (label, some code) =
              dictSet d (sanitize label) code := by
            simp only [envStep, if_neg hcode, if_neg hkey, if_neg hlast]
          rw [hstep, pyLookup_dictSet]
          by_cases hkk : sanitize label = k
          · have hpred : envPred k (label, some code) = true := by
              simp [envPred, goodCode, hkk, List.isEmpty_iff, hcode]
            simp [List.find?_cons, hpred, hkk]
          · have hpred : envPred k (label, some code) = false := by
              simp [envPred, hkk]
            simp [List.find?_cons, hpred, hkk]

/-- C8: `make_env` iterates the label/code pairs in input order, drops the
pairs whose code is absent or empty, keys the kept pairs by the sanitized
label, and on duplicate keys keeps the earliest code under the `"first"`
policy (`dict.setdefault`) and the latest under the `"last"` policy
(`dict` assignment): the environment's lookup at any key equals the code of
the first (resp. last) kept pair whose sanitized label is that key.  In
particular the two-pair "Gross Domestic Product" example of the spec. -/
theorem make_env_c8 :
    (∀ ps k, pyLookup k (make_env ps ("first".toList)) =
      (ps.find? (envPred k)).bind (fun p => p.2)) ∧
    (∀ ps k, pyLookup k (make_env ps ("last".toList)) =
      (ps.reverse.find? (envPred k)).bind (fun p => p.2)) ∧
    pyLookup ("Gross_Domestic_Product".toList)
      (make_env [("Gross Domestic Product".toList, some ("GDP".toList)),
                 ("Gross Domestic Product".toList, some ("GDP2".toList))]
        ("first".toList)) = some ("GDP".toList) ∧
    pyLookup ("Gross_Domestic_Product".toList)
      (make_env [("Gross Domestic Product".toList, some ("GDP".toList)),
                 ("Gross Domestic Product".toList, some ("GDP2".toList))]
        ("last".toList)) = some ("GDP2".toList) ∧
    make_env [("A".toList, some []), ("B".toList, none)] ("first".toList) = [] := by
  refine ⟨?_, ?_, by decide, by decide, by decide⟩
  · intro ps k
    rw [make_env, envFirst_lookup]
    rfl
  · intro ps k
    rw [make_env, envLast_lookup]
    cases ps.reverse.find? (envPred k) <;> rfl

/-- A calendar date, the value of a `pandas.Timestamp` at midnight. -/
structure PyDate where
  year : Nat
  month : Nat
  day : Nat
deriving DecidableEq

/-- Proleptic-Gregorian leap year, as used by `pandas.Timestamp`. -/
def isLeapYear (y : Nat) : Bool :=
  (y % 4 == 0 && !(y % 100 == 0)) || (y % 400 == 0)

/-- Number of days of month `m` of year `y`. -/
def daysInMonth (y m : Nat) : Nat :=
  if m = 2 then (if isLeapYear y then 29 else 28)
  else if m = 4 ∨ m = 6 ∨ m = 9 ∨ m = 11 then 30
  else 31

/-- `pd.Timestamp(year=year, month=month, day=1) + pd.offsets.MonthEnd(1)`:
the last day of the month, or `none` when the construction raises
`OutOfBoundsDatetime` (caught by the bare `except` of the source and turned
into `NaT`).  `pandas` nanosecond timestamps span 1677-09-21 .. 2262-04-11,
so the first of a month exists for 1677-10 .. 2262-04 and the corresponding
month end stays in range up to 2262-03. -/
def mkMonthEnd (year month : Nat) : Option PyDate :=
  if (1678 ≤ year ∨ (year = 1677 ∧ 10 ≤ month)) ∧
      (year ≤ 2261 ∨ (year = 2262 ∧ month ≤ 3)) then
    some ⟨year, month, daysInMonth year month⟩
  else none

/-- `pd.Timestamp(year=year, month=12, day=31)` for the annual branch, or
`none` when it raises `OutOfBoundsDatetime` (December 31 is representable
exactly for years 1677 .. 2261). -/
def mkYearEnd (year : Nat) : Option PyDate :=
  if 1677 ≤ year ∧ year ≤ 2261 then some ⟨year, 12, 31⟩ else none

/-- Python `str.isdigit()` restricted to ASCII digits: non-empty and every
character a digit. -/
def isDigits (s : List Char) : Bool :=
  !s.isEmpty && s.all Char.isDigit

/-- Python `int()` on a digit string. -/
def digitsToNat (s : List Char) : Nat :=
  s.foldl (fun n c => 10 * n + (c.toNat - 48)) 0

/-- Python `sub in s` for the two-character substring `[x, y]`. -/
def containsSub2 (x y : Char) : List Char → Bool
  | [] => false
  | [_] => false
  | c :: d :: rest => (c == x && d == y) || containsSub2 x y (d :: rest)

/-- Python `s.split(sub)` for the two-character separator `[x, y]`:
split at every non-overlapping occurrence, scanning left to right. -/
def splitSep2 (x y : Char) : List Char → List (List Char)
  | [] => [[]]
  | [c] => [[c]]
  | c :: d :: rest =>
    if c = x ∧ d = y then [] :: splitSep2 x y rest
    else
      match splitSep2 x y (d :: rest) with
      | [] => [[c]]
      | h :: t => (c :: h) :: t

/-- The per-row body of `convert_time_period_auto` from `data_inquiry.py`:
strip the value, then try the monthly (`"-M"`), quarterly (`"-Q"`) and
bare-four-digit-year formats in that order; any failed guard — a split that
does not yield exactly two parts (an unpacking `ValueError` caught by the
bare `except`), a non-numeric part, an out-of-range month or quarter, or an
out-of-bounds `Timestamp` — falls through to `none` (`NaT`). -/
def convertVal (raw : List Char) : Option PyDate :=
  if containsSub2 '-' 'M' (pyStrip raw) then
    match splitSep2 '-' 'M' (pyStrip raw) with
    | [year_str, month_part] =>
      if isDigits year_str && isDigits month_part then
        if 1 ≤ digitsToNat month_part ∧ digitsToNat month_part ≤ 12 then
          mkMonthEnd (digitsToNat year_str) (digitsToNat month_part)
        else none
      else none
    | _ => none
  else if containsSub2 '-' 'Q' (pyStrip raw) then
    match splitSep2 '-' 'Q' (pyStrip raw) with
    | [year_str, q_part] =>
      if isDigits year_str && isDigits q_part then
        if 1 ≤ digitsToNat q_part ∧ digitsToNat q_part ≤ 4 then
          mkMonthEnd (digitsToNat year_str) (digitsToNat q_part * 3)
        else none
      else none
    | _ => none
  else if isDigits (pyStrip raw) && (pyStrip raw).length == 4 then
    mkYearEnd (digitsToNat (pyStrip raw))
  else none

theorem convertVal_month_bounds {val : List Char} {d : PyDate}
    (h : convertVal val = some d) :
    d.day = daysInMonth d.year d.month ∧ 1 ≤ d.month ∧ d.month ≤ 12 := by
  unfold convertVal at h
  split at h
  · split at h
    · split at h
      · rename_i hrange
        split at h
        · rename_i hm
          unfold mkMonthEnd at h
          split at h
          · cases h; exact ⟨rfl, hm.1, hm.2⟩
          · cases h
        · cases h
      · cases h
    · cases h
  · split at h
    · split at h
      · split at h
        · rename_i hq
          split at h
          · unfold mkMonthEnd at h
            split at h
            · cases h
              refine ⟨rfl, ?_, ?_⟩ <;> dsimp only <;> omega
            · cases h
          · cases h
        · cases h
      · cases h
    · split at h
      · unfold mkYearEnd at h
        split at h
        · cases h
          refine ⟨?_, by dsimp only; omega, by dsimp only; omega⟩
          simp [daysInMonth]
        · cases h
      · cases h

/-- C4: the time-period parser maps each period string to the last calendar
day of the period it denotes, or to `none` (`NaT`) when no recognized
format matches: the five example inputs of the spec, plus the general fact
that every parsed date is the last day of its (in-range) month. -/
theorem convert_examples_c4 :
    (convertVal ("1960".toList) = some ⟨1960, 12, 31⟩ ∧
     convertVal ("1960-M04".toList) = some ⟨1960, 4, 30⟩ ∧
     convertVal ("1960-Q2".toList) = some ⟨1960, 6, 30⟩ ∧
     convertVal ("1960-M13".toList) = none ∧
     convertVal ("abcd".toList) = none) ∧
    (∀ (val : List Char) (d : PyDate), convertVal val = some d →
      d.day = daysInMonth d.year d.month ∧ 1 ≤ d.month ∧ d.month ≤ 12) := by
  refine ⟨⟨by decide, by decide, by decide, by decide, by decide⟩, ?_⟩
  intro val d h
  exact convertVal_month_bounds h

/-- C4 witness: the general last-day conjunct applied at the concrete
input `"1960-M04"`. -/
theorem convert_examples_c4_witness :
    PyDate.day ⟨1960, 4, 30⟩ = daysInMonth 1960 4 ∧
    1 ≤ PyDate.month ⟨1960, 4, 30⟩ ∧ PyDate.month ⟨1960, 4, 30⟩ ≤ 12 :=
  convert_examples_c4.2 ("1960-M04".toList) ⟨1960, 4, 30⟩ (by decide)

/-- An enumerated reference held by a representation (the `enumerated`
attribute of an sdmx `Representation`); `id` is always present on sdmx
identifiable artefacts, so the defensive `getattr(enum_ref, "id", None)`
of the source always finds it. -/
structure EnumRef where
  id : List Char
deriving DecidableEq

/-- An sdmx `Representation`: possibly holds an enumerated codelist
reference. -/
structure Representation where
  enumerated : Option EnumRef
deriving DecidableEq

/-- An sdmx `Concept`: possibly holds a core representation. -/
structure Concept where
  core_representation : Option Representation
deriving DecidableEq

/-- A dimension or attribute component of a data structure definition. -/
structure Component where
  id : List Char
  local_representation : Option Representation
  concept_identity : Option Concept
deriving DecidableEq

/-- A codelist object (only its identity matters for the claims). -/
structure Codelist where
  id : List Char
deriving DecidableEq

/-- A maintainer agency. -/
structure Agency where
  id : List Char
deriving DecidableEq

/-- A data structure definition; `dimensions` models the component list
`dsd.dimensions.components` in declared order. -/
structure DSDef where
  dimensions : List Component
deriving DecidableEq

/-- An sdmx `DataflowDefinition` together with the data it exposes; the
field `structure_` models the `structure` attribute (a Lean keyword). -/
structure Dataflow where
  id : List Char
  version : List Char
  maintainer : Agency
  structure_ : DSDef
deriving DecidableEq

/-- An sdmx `StructureMessage`: its `dataflow` collection (a `DictLike`
keyed by id that also supports positional access, modelled as a list in
insertion order) and its `codelist` collection (keyed by codelist id). -/
structure StructureMessage where
  dataflow : List Dataflow
  codelist : List (List Char × Codelist)
deriving DecidableEq

/-- `resolve_codelist(ds, component)` from `data_inquiry.py`: first the
component's local representation, then the concept's core representation,
then the `CL_<component_id>` naming heuristic; `none` when all three fail
(a normal outcome, nothing is raised).  `lr.enumerated if lr else None`
is `Option.bind`, and `enum_ref and enum_ref.id in ds.codelist` is the
guarded dictionary lookup. -/
def resolve_codelist (ds : StructureMessage) (component : Component) :
    Option Codelist :=
  match (component.local_representation.bind Representation.enumerated).bind
      (fun r => pyLookup r.id ds.codelist) with
  | some cl => some cl
  | none =>
    match ((component.concept_identity.bind Concept.core_representation).bind
        Representation.enumerated).bind (fun r => pyLookup r.id ds.codelist) with
    | some cl => some cl
    | none => pyLookup ("CL_".toList ++ component.id) ds.codelist

/-- C6: the resolver returns the codelist referenced by the component's
local representation whenever that reference's id is in the message's
codelist collection — with no assumption on the concept-level reference or
the heuristic, so it wins even when they would also match — and returns
`none` (without raising; the function is total) when none of the three
strategies matches. -/
theorem resolve_codelist_c6 :
    (∀ (ds : StructureMessage) (comp : Component) (lr : Representation)
        (ref : EnumRef) (cl : Codelist),
      comp.local_representation = some lr →
      lr.enumerated = some ref →
      pyLookup ref.id ds.codelist = some cl →
      resolve_codelist ds comp = some cl) ∧
    (∀ (ds : StructureMessage) (comp : Component),
      (comp.local_representation.bind Representation.enumerated).bind
        (fun r => pyLookup r.id ds.codelist) = none →
      ((comp.concept_identity.bind Concept.core_representation).bind
        Representation.enumerated).bind (fun r => pyLookup r.id ds.codelist) = none →
      pyLookup ("CL_".toList ++ comp.id) ds.codelist = none →
      resolve_codelist ds comp = none) := by
  constructor
  · intro ds comp lr ref cl h1 h2 h3
    unfold resolve_codelist
    rw [h1]
    simp only [Option.some_bind, h2, h3]
  · intro ds comp h1 h2 h3
    unfold resolve_codelist
    rw [h1, h2, h3]

/-- A concrete message for the C6 witness in which all three resolution
strategies would match: the local representation names `CL_LOCAL`, the
concept's core representation names `CL_CONCEPT`, and `CL_DIM` exists for
the component id `DIM`. -/
def cResolveMsg : StructureMessage :=
  { dataflow := []
    codelist := [("CL_LOCAL".toList, ⟨"CL_LOCAL".toList⟩),
                 ("CL_CONCEPT".toList, ⟨"CL_CONCEPT".toList⟩),
                 ("CL_DIM".toList, ⟨"CL_DIM".toList⟩)] }

/-- The component for the C6 witness. -/
def cResolveComp : Component :=
  { id := "DIM".toList
    local_representation := some ⟨some ⟨"CL_LOCAL".toList⟩⟩
    concept_identity := some ⟨some ⟨some ⟨"CL_CONCEPT".toList⟩⟩⟩ }

/-- C6 witness: on the concrete message where all three strategies match,
the resolver returns the local-representation codelist. -/
theorem resolve_codelist_c6_witness :
    resolve_codelist cResolveMsg cResolveComp = some ⟨"CL_LOCAL".toList⟩ :=
  resolve_codelist_c6.1 cResolveMsg cResolveComp
    ⟨some ⟨"CL_LOCAL".toList⟩⟩ ⟨"CL_LOCAL".toList⟩ ⟨"CL_LOCAL".toList⟩
    rfl rfl (by decide)

/-- A dataset handle: the fields bound by `DataSet.__init__` (the
`connection` back-reference carries no data relevant to any claim and is
omitted). -/
structure DataSet where
  datasetID : List Char
  agencyID : List Char
  version : List Char
  dataflow : StructureMessage
deriving DecidableEq

/-- `DataSet.__init__` from `data_inquiry.py`: raise
`ValueError("Expected exactly one Dataflow in StructureMessage.")` when
`len(msg.dataflow) != 1`, else bind the single dataflow's id, maintainer id
and version, and keep the whole message (`msg.dataflow[0]` is positional
access on the `DictLike`). -/
def dataSetInit (msg : StructureMessage) : Except (List Char) DataSet :=
  match msg.dataflow with
  | [df] =>
    Except.ok { datasetID := df.id, agencyID := df.maintainer.id,
                version := df.version, dataflow := msg }
  | _ => Except.error ("Expected exactly one Dataflow in StructureMessage.".toList)

/-- C7: constructing a dataset handle fails with the structural-ambiguity
`ValueError` exactly when the message does not contain exactly one
dataflow; with exactly one it succeeds and exposes that dataflow's id,
agency and version. -/
theorem dataset_init_c7 :
    (∀ msg : StructureMessage,
      (∃ e, dataSetInit msg = Except.error e) ↔ msg.dataflow.length ≠ 1) ∧
    (∀ (msg : StructureMessage) (df : Dataflow), msg.dataflow = [df] →
      dataSetInit msg = Except.ok
        { datasetID := df.id, agencyID := df.maintainer.id,
          version := df.version, dataflow := msg }) := by
  constructor
  · intro msg
    rcases hm : msg.dataflow with _ | ⟨df, _ | ⟨df2, rest⟩⟩
    · simp [dataSetInit, hm]
    · simp [dataSetInit, hm]
    · simp [dataSetInit, hm]
  · intro msg df h
    simp [dataSetInit, h]

/-- A two-dataflow message for the C7 witness. -/
def cTwoFlowMsg : StructureMessage :=
  { dataflow := [⟨"A".toList, "1.0".toList, ⟨"IMF".toList⟩, ⟨[]⟩⟩,
                 ⟨"B".toList, "1.0".toList, ⟨"IMF".toList⟩, ⟨[]⟩⟩]
    codelist := [] }

/-- A one-dataflow message for the C7 witness. -/
def cOneFlowMsg : StructureMessage :=
  { dataflow := [⟨"A".toList, "1.0".toList, ⟨"IMF".toList⟩, ⟨[]⟩⟩]
    codelist := [] }

/-- C7 witness: two dataflows make construction fail, one makes it succeed
with the dataflow's id, agency and version exposed. -/
theorem dataset_init_c7_witness :
    (dataSetInit cTwoFlowMsg).isOk = false ∧
    dataSetInit cOneFlowMsg = Except.ok
      { datasetID := "A".toList, agencyID := "IMF".toList,
        version := "1.0".toList, dataflow := cOneFlowMsg } := by
  constructor
  · obtain ⟨e, he⟩ := (dataset_init_c7.1 cTwoFlowMsg).mpr (by decide)
    rw [he]; rfl
  · exact dataset_init_c7.2 cOneFlowMsg ⟨"A".toList, "1.0".toList, ⟨"IMF".toList⟩, ⟨[]⟩⟩ rfl

/-- Map a fallible function over a list, propagating the first failure —
the effect of a Python loop whose body may raise. -/
def optionMapList {α β : Type} (f : α → Option β) : List α → Option (List β)
  | [] => some []
  | a :: l =>
    match f a with
    | none => none
    | some b => (optionMapList f l).map (fun bs => b :: bs)

/-- The loop body of `DataSet._dimension_names`: read
`dim.concept_identity.core_representation.enumerated` — an `AttributeError`
(modelled `none`) when the concept identity or its core representation is
absent — and pair the dimension id with the codelist id (or Python `None`).
The row is the pair view of the dict
`{"dimension": dim.id, "codelists": cl_id}`. -/
def dimRowOf (dim : Component) : Option (List Char × Option (List Char)) :=
  match dim.concept_identity with
  | none => none
  | some ci =>
    match ci.core_representation with
    | none => none
    | some cr => some (dim.id, cr.enumerated.map EnumRef.id)

/-- `DataSet._dimension_names` from `data_inquiry.py`: look the bound
dataflow up by id in the message (`self.dataflow.dataflow[self.datasetID]`)
and build one row per component of `structure.dimensions.components`, in
declared order. -/
def DataSet._dimension_names (ds : DataSet) :
    Option (List (List Char × Option (List Char))) :=
  match ds.dataflow.dataflow.find? (fun df => decide (df.id = ds.datasetID)) with
  | none => none
  | some df => optionMapList dimRowOf df.structure_.dimensions

/-- The codelist id that the dimension's concept's core representation
declares (`None` when it declares none): the concept-only path that
`_dimension_names` consults. -/
def conceptClId (dim : Component) : Option (List Char) :=
  ((dim.concept_identity.bind Concept.core_representation).bind
    Representation.enumerated).map EnumRef.id

theorem optionMapList_eq_map {α β : Type} (f : α → Option β) (g : α → β)
    (l : List α) (h : ∀ a ∈ l, f a = some (g a)) :
    optionMapList f l = some (l.map g) := by
  induction l with
  | nil => rfl
  | cons a l ih =>
    rw [optionMapList, h a (List.mem_cons_self ..),
      ih (fun b hb => h b (List.mem_cons_of_mem _ hb))]
    rfl

theorem dimRowOf_of_concept {dim : Component}
    (h : (dim.concept_identity.bind Concept.core_representation).isSome = true) :
    dimRowOf dim = some (dim.id, conceptClId dim) := by
  cases hci : dim.concept_identity with
  | none => simp [hci] at h
  | some ci =>
    cases hcr : ci.core_representation with
    | none => simp [hci, hcr] at h
    | some cr => simp [dimRowOf, conceptClId, hci, hcr]

/-- C9: for a handle built from a one-dataflow message whose dimensions all
carry a concept with a core representation, `_dimension_names` returns one
row per dimension component in declared order, pairing the dimension id
with the codelist id declared by the concept's core representation (`None`
when it declares none); the row function is invariant under the component's
local representation and the whole computation is invariant under the
message's codelist collection, so neither the local-representation path nor
the `CL_<id>` heuristic is ever consulted. -/
theorem dimension_names_c9 :
    (∀ (msg : StructureMessage) (df : Dataflow) (ds : DataSet),
      dataSetInit msg = Except.ok ds →
      msg.dataflow = [df] →
      (∀ dim ∈ df.structure_.dimensions,
        (dim.concept_identity.bind Concept.core_representation).isSome = true) →
      DataSet._dimension_names ds =
        some (df.structure_.dimensions.map (fun dim => (dim.id, conceptClId dim)))) ∧
    (∀ (dim : Component) (lr : Option Representation),
      dimRowOf { dim with local_representation := lr } = dimRowOf dim) ∧
    (∀ (ds : DataSet) (cls : List (List Char × Codelist)),
      DataSet._dimension_names
        { ds with dataflow := { ds.dataflow with codelist := cls } } =
      DataSet._dimension_names ds) := by
  refine ⟨?_, ?_, ?_⟩
  · intro msg df ds hinit hdf hall
    simp only [dataSetInit, hdf] at hinit
    cases hinit
    rw [DataSet._dimension_names, hdf]
    have hdec : decide (df.id = df.id) = true := by simp
    rw [List.find?_cons, hdec]
    exact optionMapList_eq_map dimRowOf (fun dim => (dim.id, conceptClId dim))
      df.structure_.dimensions (fun dim hdim => dimRowOf_of_concept (hall dim hdim))
  · intro dim lr
    cases dim
    rfl
  · intro ds cls
    cases ds with
    | mk id ag v msg => cases msg; rfl

/-- The FREQ dimension of the end-to-end IFS example: concept core
representation names `CL_FREQ`. -/
def cFreqDim : Component :=
  { id := "FREQ".toList, local_representation := none,
    concept_identity := some ⟨some ⟨some ⟨"CL_FREQ".toList⟩⟩⟩ }

/-- The REF_AREA dimension of the IFS example: concept core representation
names `CL_AREA`. -/
def cAreaDim : Component :=
  { id := "REF_AREA".toList, local_representation := none,
    concept_identity := some ⟨some ⟨some ⟨"CL_AREA".toList⟩⟩⟩ }

/-- The one-dataflow IFS structural message of the spec's end-to-end
scenario (with its two codelists present in the message). -/
def cIfsMsg : StructureMessage :=
  { dataflow := [⟨"IFS".toList, "1.0".toList, ⟨"IMF".toList⟩,
                  ⟨[cFreqDim, cAreaDim]⟩⟩]
    codelist := [("CL_FREQ".toList, ⟨"CL_FREQ".toList⟩),
                 ("CL_AREA".toList, ⟨"CL_AREA".toList⟩)] }

/-- The dataset handle that `dataSetInit` builds from the IFS message. -/
def cIfsDs : DataSet :=
  { datasetID := "IFS".toList, agencyID := "IMF".toList,
    version := "1.0".toList, dataflow := cIfsMsg }

/-- C9 witness: on the concrete IFS handle the rows are exactly
`[(FREQ, CL_FREQ), (REF_AREA, CL_AREA)]` in declared order. -/
theorem dimension_names_c9_witness :
    DataSet._dimension_names cIfsDs =
      some [("FREQ".toList, some ("CL_FREQ".toList)),
            ("REF_AREA".toList, some ("CL_AREA".toList))] := by
  have h := dimension_names_c9.1 cIfsMsg
    ⟨"IFS".toList, "1.0".toList, ⟨"IMF".toList⟩, ⟨[cFreqDim, cAreaDim]⟩⟩
    cIfsDs (by rfl) rfl (by decide)
  rw [h]
  decide

/-- Python exception classes raised by the environment builders. -/
inductive PyErr
  | valueError
  | typeError
deriving DecidableEq

/-- The Python dict `{"dimension": row.1, "codelists": row.2}` that
`_dimension_names` builds for each row, with its two keys in insertion
order. -/
def dimRowDict (row : List Char × Option (List Char)) :
    List (List Char × Option (List Char)) :=
  [("dimension".toList, some row.1), ("codelists".toList, row.2)]

/-- Python tuple unpacking `label, code = row` where `row` is a dict:
iterating a dict yields its KEYS in insertion order, so a two-key dict
unpacks to its two key strings and any other key count raises `ValueError`
(modelled `none`). -/
def pyIterUnpack2 {β : Type} (d : List (List Char × β)) :
    Option (List Char × List Char) :=
  match d with
  | [k1, k2] => some (k1.1, k2.1)
  | _ => none

/-- `DataSet.get_dimension_names_env` from `data_inquiry.py`: it calls
`make_env(self._dimension_names())` on the list of row DICTS, so the
`for label, code in pairs` loop unpacks each row dict into its two key
strings `("dimension", "codelists")` rather than into a label/code pair. -/
def get_dimension_names_env (ds : DataSet) :
    Option (List (List Char × List Char)) :=
  (DataSet._dimension_names ds).bind (fun rows =>
    (optionMapList pyIterUnpack2 (rows.map dimRowDict)).map (fun pairs =>
      make_env (pairs.map (fun p => (p.1, some p.2))) ("first".toList)))

/-- `DataSet.get_codelist_env` from `data_inquiry.py`: the body is
`make_env(self._get_codelist(codelist_id), "code_id", "name")`.  The
argument `self._get_codelist(codelist_id)` is evaluated first and raises
`ValueError` when the codelist id is absent from the message; otherwise the
call itself raises `TypeError`, because `make_env` takes a single
positional parameter (`pairs`; `keep` is keyword-only) and is given three.
Every call therefore raises. -/
def get_codelist_env (ds : DataSet) (codelist_id : List Char) :
    Except PyErr (List (List Char × List Char)) :=
  match pyLookup codelist_id ds.dataflow.codelist with
  | none => Except.error PyErr.valueError
  | some _ => Except.error PyErr.typeError

/-- C1 (code bug): on the concrete IFS handle, `get_dimension_names_env`
does not map sanitized dimension labels to ids — it returns the constant
one-entry environment `{"dimension": "codelists"}` built from the dict
keys, so looking up the sanitized dimension name `FREQ` fails — and
`get_codelist_env` raises `TypeError` for a present codelist (and
`ValueError` for an absent one) instead of building an environment. -/
theorem env_bug_c1 :
    get_dimension_names_env cIfsDs =
      some [("dimension".toList, "codelists".toList)] ∧
    (get_dimension_names_env cIfsDs).map (pyLookup (sanitize ("FREQ".toList))) =
      some none ∧
    get_codelist_env cIfsDs ("CL_FREQ".toList) = Except.error PyErr.typeError ∧
    get_codelist_env cIfsDs ("CL_MISSING".toList) = Except.error PyErr.valueError := by
  refine ⟨by decide, by decide, by rfl, by rfl⟩

/-- The ASCII digit character for `n % 10`. -/
def digitChar (n : Nat) : Char := Char.ofNat (48 + n % 10)

/-- Two-digit zero-padded decimal rendering (enough for months/days). -/
def pad2 (n : Nat) : List Char := [digitChar (n / 10), digitChar n]

/-- Four-digit zero-padded decimal rendering (enough for in-bounds years). -/
def pad4 (n : Nat) : List Char :=
  [digitChar (n / 1000), digitChar (n / 100), digitChar (n / 10), digitChar n]

/-- A cell of a `pandas` column: a string, or a datetime value (with
`none` for `NaT`) as produced by the conversion. -/
inductive Cell
  | str (s : List Char)
  | date (d : Option PyDate)
deriving DecidableEq

/-- `str(cell)`, the effect of `.astype(str)` on a cell: identity on
strings; `Timestamp`s render as `"YYYY-MM-DD HH:MM:SS"` and `NaT` as
`"NaT"` (time columns hold strings in practice, so the claims only
exercise the first arm). -/
def cellStr : Cell → List Char
  | Cell.str s => s
  | Cell.date none => "NaT".toList
  | Cell.date (some d) =>
    pad4 d.year ++ '-' :: pad2 d.month ++ '-' :: pad2 d.day ++ " 00:00:00".toList

/-- `convert_time_period_auto(df, time_col, out_col)` from
`data_inquiry.py`: `df[time_col]` raises `KeyError` (modelled `none`) when
the column is absent; otherwise the loop appends exactly one converted
value per row (`convertVal`) and the result is assigned onto a fresh copy
of the table — `df.copy()` is why the input itself is never mutated —
where `df_copy[out_col] = ...` replaces the column in place when the name
exists and appends it at the end otherwise (`dictSet`). -/
def convert_time_period_auto (df : List (List Char × List Cell))
    (time_col out_col : List Char) : Option (List (List Char × List Cell)) :=
  match pyLookup time_col df with
  | none => none
  | some col =>
    some (dictSet df out_col ((col.map cellStr).map (fun v => Cell.date (convertVal v))))

/-- C5: the conversion produces an output column of exactly the input
column's length, one `convertVal` result per row; and a row that contains
the monthly or quarterly marker but splits into parts that are non-numeric
or name an out-of-range month/quarter converts to `none` (`NaT`) — it
never raises, so no bad row aborts the batch (every modelled exception is
already absorbed into `none`). -/
theorem convert_batch_c5 :
    (∀ (df : List (List Char × List Cell)) (tc oc : List Char) (col : List Cell),
      pyLookup tc df = some col →
      convert_time_period_auto df tc oc =
        some (dictSet df oc ((col.map cellStr).map (fun v => Cell.date (convertVal v)))) ∧
      pyLookup oc (dictSet df oc ((col.map cellStr).map (fun v => Cell.date (convertVal v)))) =
        some ((col.map cellStr).map (fun v => Cell.date (convertVal v))) ∧
      ((col.map cellStr).map (fun v => Cell.date (convertVal v))).length = col.length) ∧
    (∀ (val a b : List Char),
      containsSub2 '-' 'M' (pyStrip val) = true →
      splitSep2 '-' 'M' (pyStrip val) = [a, b] →
      (isDigits a = false ∨ isDigits b = false ∨
        digitsToNat b = 0 ∨ 12 < digitsToNat b) →
      convertVal val = none) ∧
    (∀ (val a b : List Char),
      containsSub2 '-' 'M' (pyStrip val) = false →
      containsSub2 '-' 'Q' (pyStrip val) = true →
      splitSep2 '-' 'Q' (pyStrip val) = [a, b] →
      (isDigits a = false ∨ isDigits b = false ∨
        digitsToNat b = 0 ∨ 4 < digitsToNat b) →
      convertVal val = none) := by
  refine ⟨?_, ?_, ?_⟩
  · intro df tc oc col h
    refine ⟨by simp [convert_time_period_auto, h], ?_, by simp⟩
    rw [pyLookup_dictSet]
    simp
  · intro val a b hc hs hbad
    simp only [convertVal, hc, if_true, hs]
    rcases hbad with h | h | h | h
    · simp [h]
    · simp [h]
    · split
      · split
        · rename_i hcond; exact absurd hcond.1 (by omega)
        · rfl
      · rfl
    · split
      · split
        · rename_i hcond; exact absurd hcond.2 (by omega)
        · rfl
      · rfl
  · intro val a b hm hc hs hbad
    simp only [convertVal, hm, hc, if_true, Bool.false_eq_true, if_false, hs]
    rcases hbad with h | h | h | h
    · simp [h]
    · simp [h]
    · split
      · split
        · rename_i hcond; exact absurd hcond.1 (by omega)
        · rfl
      · rfl
    · split
      · split
        · rename_i hcond; exact absurd hcond.2 (by omega)
        · rfl
      · rfl

/-- The one-column, two-row table for the C5 witness (one bad monthly row,
one good annual row). -/
def cDf5 : List (List Char × List Cell) :=
  [("TIME_PERIOD".toList, [Cell.str ("1960-M13".toList), Cell.str ("1960".toList)])]

/-- C5 witness: the batch conjunct applied to the concrete two-row table
(the output column has length 2) and the bad-row conjuncts applied at the
out-of-range inputs `"1960-M13"` and `"1962-Q5"`. -/
theorem convert_batch_c5_witness :
    ((([Cell.str ("1960-M13".toList), Cell.str ("1960".toList)]).map cellStr).map
      (fun v => Cell.date (convertVal v))).length = 2 ∧
    convertVal ("1960-M13".toList) = none ∧
    convertVal ("1962-Q5".toList) = none := by
  refine ⟨?_, ?_, ?_⟩
  · have h := (convert_batch_c5.1 cDf5 ("TIME_PERIOD".toList) ("date".toList)
      [Cell.str ("1960-M13".toList), Cell.str ("1960".toList)] (by decide)).2.2
    rw [h]
    rfl
  · exact convert_batch_c5.2.1 ("1960-M13".toList) ("1960".toList) ("13".toList)
      (by decide) (by decide) (Or.inr (Or.inr (Or.inr (by decide))))
  · exact convert_batch_c5.2.2 ("1962-Q5".toList) ("1962".toList) ("5".toList)
      (by decide) (by decide) (by decide) (Or.inr (Or.inr (Or.inr (by decide))))

/-- The table for the C10 counterexample: it already has a `date` column. -/
def cDf10 : List (List Char × List Cell) :=
  [("TIME_PERIOD".toList, [Cell.str ("1960".toList)]),
   ("date".toList, [Cell.str ("x".toList)])]

/-- C10 counterexample: when the output column name already exists in the
input, the result is NOT the input's columns unchanged plus one appended
output column — `df_copy[out_col] = ...` replaces the existing `date`
column in place instead. -/
theorem convert_frame_c10_counterexample :
    convert_time_period_auto cDf10 ("TIME_PERIOD".toList) ("date".toList) ≠
      some (cDf10 ++ [("date".toList, [Cell.date (some ⟨1960, 12, 31⟩)])]) := by
  decide

/-- C10 (amended): for every input table that contains the time column and
does not already contain the output column name, the conversion returns a
new table whose columns are exactly the input's columns unchanged plus one
appended output column of converted dates (when the output name already
exists, that column is instead replaced in place). -/
theorem convert_frame_c10 (df : List (List Char × List Cell))
    (tc oc : List Char) (col : List Cell)
    (h1 : pyLookup tc df = some col) (h2 : pyLookup oc df = none) :
    convert_time_period_auto df tc oc =
      some (df ++ [(oc, (col.map cellStr).map (fun v => Cell.date (convertVal v)))]) := by
  simp only [convert_time_period_auto, h1]
  rw [dictSet_absent oc ((col.map cellStr).map (fun v => Cell.date (convertVal v))) df h2]

/-- The table for the C10 witness: no pre-existing `date` column. -/
def cDfW : List (List Char × List Cell) :=
  [("TIME_PERIOD".toList, [Cell.str ("1960".toList)])]

/-- C10 witness: on the concrete one-column table the conversion appends
the converted `date` column and leaves the input column unchanged. -/
theorem convert_frame_c10_witness :
    convert_time_period_auto cDfW ("TIME_PERIOD".toList) ("date".toList) =
      some (cDfW ++ [("date".toList, [Cell.date (some ⟨1960, 12, 31⟩)])]) := by
  have h := convert_frame_c10 cDfW ("TIME_PERIOD".toList) ("date".toList)
    [Cell.str ("1960".toList)] (by decide) (by decide)
  rw [h]
  decide

end ImfDataPy
